import Mathlib

/-!
Verification of the browser-inspector extraction / identity / usage-tracking
core.  The definitions below are a shallow embedding of the JavaScript source
(`src/lib/storage.js`, `src/background/service-worker.js`, the handler
modules): strings are Lean `String`s manipulated through their `List Char`
data, JS objects become structures (absent properties become `Option`
fields), JS exceptions become `Except`, and the persistent store becomes an
explicitly threaded state value.
-/

namespace BrowserInspector

/-! ### Character-list utilities (models of the JS string primitives used) -/

/-- Model of `s.toLowerCase()` for the ASCII strings handled here. -/
def lowerStr (s : String) : String := String.mk (s.data.map Char.toLower)

/-- Model of `str.split(sep)` for a one-character separator: like the JS
version it always returns at least one (possibly empty) segment. -/
def splitChar (c : Char) : List Char → List (List Char)
  | [] => [[]]
  | x :: xs =>
    match splitChar c xs with
    | [] => [[]]
    | s :: rest => if x = c then [] :: s :: rest else (x :: s) :: rest

/-- Model of `parts.join(sep)` for a one-character separator. -/
def joinChar (c : Char) : List (List Char) → List Char
  | [] => []
  | [s] => s
  | s :: t :: rest => s ++ c :: joinChar c (t :: rest)

/-! ### Association lists: model of plain JS objects used as string-keyed maps.
`setA` mirrors property assignment (updating in place, appending new keys at
the end), `removeA` mirrors `delete`, `lookupA` mirrors property read. -/

/-- Model of reading `obj[k]` (absent property reads as `none`). -/
def lookupA {β : Type} : List (String × β) → String → Option β
  | [], _ => none
  | (k, v) :: t, key => if k = key then some v else lookupA t key

/-- Model of `obj[k] = v`: replace in place, or append a new key. -/
def setA {β : Type} : List (String × β) → String → β → List (String × β)
  | [], key, v => [(key, v)]
  | (k, w) :: t, key, v =>
    if k = key then (key, v) :: t else (k, w) :: setA t key v

/-- Model of `delete obj[k]`. -/
def removeA {β : Type} : List (String × β) → String → List (String × β)
  | [], _ => []
  | (k, v) :: t, key =>
    if k = key then removeA t key else (k, v) :: removeA t key

/-! ### Path normalization
From `normalizeApiPath` in `src/lib/storage.js` and `normalizePathPattern` in
`src/background/service-worker.js`: both split the path on `/` and replace
UUID-shaped, purely numeric, or 20+-character alphanumeric segments with `*`;
`normalizePathPattern` additionally strips a query string first. -/

/-- `[0-9a-f]` with the regex `i` flag. -/
def isHexChar (c : Char) : Bool :=
  c.isDigit || (('a' ≤ c && c ≤ 'f') || ('A' ≤ c && c ≤ 'F'))

/-- Model of the test
`/^[0-9a-f]{8}-[0-9a-f]{4}-[0-9a-f]{4}-[0-9a-f]{4}-[0-9a-f]{12}$/i`:
exactly five dash-separated hex groups of lengths 8-4-4-4-12. -/
def isUUIDSeg (s : List Char) : Bool :=
  let groups := splitChar '-' s
  groups.length = 5 &&
    ((groups.map List.length) = [8, 4, 4, 4, 12] &&
      groups.all (fun g => g.all isHexChar))

/-- Model of the test `/^\d+$/`. -/
def isNumericSeg (s : List Char) : Bool :=
  !s.isEmpty && s.all Char.isDigit

/-- Model of the test `/^[a-zA-Z0-9]{20,}$/`. -/
def isLongAlnumSeg (s : List Char) : Bool :=
  s.length ≥ 20 && s.all (fun c => c.isDigit || c.isAlpha)

/-- The per-segment replacement applied by both normalizers. -/
def mapSeg (s : List Char) : List Char :=
  if isUUIDSeg s then ['*']
  else if isNumericSeg s then ['*']
  else if isLongAlnumSeg s then ['*']
  else s

/-- Split on `/`, replace ID-like segments with `*`, rejoin. -/
def normSegs (l : List Char) : List Char :=
  joinChar '/' ((splitChar '/' l).map mapSeg)

/-- `normalizeApiPath` from `src/lib/storage.js`. -/
def normalizeApiPath (p : String) : String :=
  if p = "" then "" else String.mk (normSegs p.data)

/-- `normalizePathPattern` from `src/background/service-worker.js` (also
strips a query string: `path.split(\x27?\x27)[0]`). -/
def normalizePathPattern (p : String) : String :=
  if p = "" then ""
  else String.mk (normSegs (p.data.takeWhile (fun c => c ≠ '?')))

/-! ### URL model
`new URL(...)` is a platform builtin (an external collaborator per the spec).
This models it for the simple absolute http(s) URLs exercised here: scheme
check, host up to the first `/`, `?` or `#` (lower-cased), pathname, and raw
query pairs in order; `none` models the constructor throwing. -/

structure URLRec where
  hostname : String
  pathname : String
  searchParams : List (String × String)
deriving DecidableEq

/-- Query-string splitting as `URLSearchParams` iterates it: `&`-separated
pairs, first `=` separates key from value, empty segments skipped. -/
def splitQueryPairs (q : List Char) : List (String × String) :=
  (splitChar '&' q).filterMap (fun seg =>
    if seg.isEmpty then none
    else
      some (String.mk (seg.takeWhile (fun c => c ≠ '=')),
        String.mk
          (if (seg.takeWhile (fun c => c ≠ '=')).length < seg.length then
            seg.drop ((seg.takeWhile (fun c => c ≠ '=')).length + 1)
          else [])))

def parseURL (url : String) : Option URLRec :=
  match
    (if List.isPrefixOf "https://".data url.data then some (url.data.drop 8)
     else if List.isPrefixOf "http://".data url.data then some (url.data.drop 7)
     else none) with
  | none => none
  | some rest =>
    let host := rest.takeWhile (fun c => c ≠ '/' ∧ c ≠ '?' ∧ c ≠ '#')
    if host.isEmpty then none
    else
      let after := rest.drop host.length
      let pathPart :=
        if after.head? = some '/' then
          (after.takeWhile (fun c => c ≠ '?' ∧ c ≠ '#'),
            after.dropWhile (fun c => c ≠ '?' ∧ c ≠ '#'))
        else (['/'], after)
      let query :=
        if pathPart.2.head? = some '?' then
          (pathPart.2.drop 1).takeWhile (fun c => c ≠ '#')
        else []
      some { hostname := String.mk (host.map Char.toLower),
             pathname := String.mk pathPart.1,
             searchParams := splitQueryPairs query }

/-! ### Domain filter (`shouldCaptureDomain` / `matchDomainPattern` in
`src/lib/storage.js`) -/

structure Config where
  domainAllowlist : List String := []
  domainBlocklist : List String := []
deriving DecidableEq

/-- `matchDomainPattern(domain, pattern)`: exact match, or a `*.suffix`
wildcard which matches `domain.endsWith(suffix-with-dot)` or the bare
suffix itself. -/
def matchDomainPattern (domain pat : String) : Bool :=
  if pat = "" then false
  else if domain = pat then true
  else if pat.data.take 2 = ['*', '.'] then
    List.isSuffixOf (pat.data.drop 1) domain.data || domain.data = pat.data.drop 2
  else false

/-- `shouldCaptureDomain(domain, config)`; `none` models a null/undefined
domain (JS `!domain` is also true for the empty string). -/
def shouldCaptureDomain (domain : Option String) (config : Config) : Bool :=
  match domain with
  | none => false
  | some d =>
    if d = "" then false
    else if config.domainBlocklist.length > 0 ∧
        config.domainBlocklist.any (fun p => matchDomainPattern d p) then false
    else if config.domainAllowlist.length = 0 then true
    else config.domainAllowlist.any (fun p => matchDomainPattern d p)

/-- The domain filter as the specification words it: empty or null domain
rejects; a block-list match rejects regardless of the allow-list; otherwise
an empty allow-list accepts, and a non-empty allow-list accepts exactly the
domains matching some allow pattern. -/
def shouldCaptureDomainSpec (domain : Option String) (config : Config) : Bool :=
  match domain with
  | none => false
  | some d =>
    if d = "" then false
    else if config.domainBlocklist.any (fun p => matchDomainPattern d p) then false
    else if config.domainAllowlist = [] then true
    else config.domainAllowlist.any (fun p => matchDomainPattern d p)

/-! ### Root-domain extraction (`extractRootDomain` in `src/lib/storage.js`) -/

def MULTI_PART_TLDS : List String := ["co.uk", "co.id", "co.jp", "com.au", "com.br", "org.uk"]

/-- Model of the test `/^\d+\.\d+\.\d+\.\d+$/`: exactly four dot-separated
nonempty all-digit groups. -/
def isDottedQuadIP (l : List Char) : Bool :=
  (splitChar '.' l).length = 4 &&
    (splitChar '.' l).all (fun s => !s.isEmpty && s.all Char.isDigit)

/-- Model of `parts.slice(-n)`. -/
def lastN {α : Type} (n : Nat) (l : List α) : List α := l.drop (l.length - n)

def extractRootDomain (hostname : String) : String :=
  if hostname = "" then ""
  else if hostname = "localhost" ∨ isDottedQuadIP hostname.data then hostname
  else if (splitChar '.' hostname.data).length ≤ 2 then hostname
  else if MULTI_PART_TLDS.contains
      (String.mk (joinChar '.' (lastN 2 (splitChar '.' hostname.data)))) then
    String.mk (joinChar '.' (lastN 3 (splitChar '.' hostname.data)))
  else String.mk (joinChar '.' (lastN 2 (splitChar '.' hostname.data)))

/-- The root-domain extraction as the claim words it: hostname unchanged for
`localhost` and dotted-quad IP literals; otherwise the last two dot-separated
labels, except the last three when the last two form a known multi-part TLD. -/
def extractRootDomainSpec (hostname : String) : String :=
  if hostname = "localhost" ∨ isDottedQuadIP hostname.data then hostname
  else if MULTI_PART_TLDS.contains
      (String.mk (joinChar '.' (lastN 2 (splitChar '.' hostname.data)))) then
    String.mk (joinChar '.' (lastN 3 (splitChar '.' hostname.data)))
  else String.mk (joinChar '.' (lastN 2 (splitChar '.' hostname.data)))

/-! ### Request records and extraction records
From the handler modules (`src/handlers/...`).  A JS object property that a
given code path never assigns is modelled as an `Option` field defaulting to
`none`; in particular `Source.path` is read by `generateKey` but never set by
any built-in handler, which only assigns `url`, `domain`, `method`, `tabId`. -/

structure Header where
  name : String
  value : String
deriving DecidableEq

structure RequestDetails where
  url : String
  method : String
  requestHeaders : List Header
  tabId : Int
deriving DecidableEq

structure Source where
  url : String
  domain : String
  path : Option String := none
  method : String
  tabId : Int
deriving DecidableEq

structure TokenInfo where
  value : String
  tokenType : String
  originalHeader : String
deriving DecidableEq

structure ExtractRecord where
  handler : String := ""
  displayName : String := ""
  type : String
  value : String
  tokenType : Option String := none
  headerName : Option String := none
  cookieName : Option String := none
  paramName : Option String := none
  allTokens : List (String × TokenInfo) := []
  allCookies : List (String × String) := []
  allParams : List (String × String) := []
  source : Source
deriving DecidableEq

/-- `BaseHandler.getHeader`: case-insensitive header lookup. -/
def getHeader (headers : List Header) (name : String) : Option String :=
  (headers.find? (fun h => lowerStr h.name = lowerStr name)).map Header.value

/-- The `source` object every built-in handler attaches
(`parsedUrl?.hostname || 'unknown'`; note: no `path` property). -/
def mkSource (d : RequestDetails) : Source :=
  { url := d.url,
    domain :=
      match parseURL d.url with
      | some u => if u.hostname = "" then "unknown" else u.hostname
      | none => "unknown",
    method := d.method,
    tabId := d.tabId }

/-! #### Auth-token handler (`src/handlers/auth-token-handler.js`), at its
default configuration (default `headerPatterns`, empty `urlPatterns`, so the
URL-pattern branch of `matches` is skipped). -/

def authHeaderPatterns : List String :=
  ["authorization", "x-auth-token", "x-access-token", "x-api-key", "api-key",
   "x-token", "token", "x-session-token", "x-csrf-token", "x-xsrf-token"]

def authTokenMatches (d : RequestDetails) : Bool :=
  d.requestHeaders.any (fun h => authHeaderPatterns.contains (lowerStr h.name))

structure PrimaryToken where
  value : String
  tokenType : String
  headerName : String
deriving DecidableEq

/-- The header loop of `AuthTokenHandler.extract`: collects all matching
headers (side-map keyed by lowercase name), strips a case-insensitive
`Bearer ` prefix, and picks the primary (`authorization` wins, else the
first match). -/
def authFold (headers : List Header) :
    List (String × TokenInfo) × Option PrimaryToken :=
  headers.foldl (fun acc h =>
    let hn := lowerStr h.name
    if authHeaderPatterns.contains hn then
      let bearer := List.isPrefixOf "bearer ".data (lowerStr h.value).data
      let v := if bearer then String.mk (h.value.data.drop 7) else h.value
      let tt := if bearer then "bearer" else "raw"
      (setA acc.1 hn ⟨v, tt, h.name⟩,
       if hn = "authorization" ∨ acc.2.isNone then some ⟨v, tt, h.name⟩ else acc.2)
    else acc) ([], none)

def authTokenExtract (d : RequestDetails) : Option ExtractRecord :=
  match (authFold d.requestHeaders).2 with
  | none => none
  | some p =>
    some { type := "auth-token", value := p.value, tokenType := some p.tokenType,
           headerName := some p.headerName,
           allTokens := (authFold d.requestHeaders).1, source := mkSource d }

/-! #### Cookie handler (`src/handlers/cookie-handler.js`), default config. -/

def cookiePatternsDefault : List String :=
  ["session", "sessionid", "session_id", "sid", "auth", "auth_token", "token",
   "jwt", "access_token", "refresh_token", "__session", "_session",
   "connect.sid", "PHPSESSID", "JSESSIONID", "ASP.NET_SessionId"]

def trimChars (l : List Char) : List Char :=
  ((l.dropWhile Char.isWhitespace).reverse.dropWhile Char.isWhitespace).reverse

/-- `CookieHandler.parseCookies`: split on `;`, trim, split the first `=`,
keep later `=` characters in the value; empty names are skipped. -/
def parseCookies (s : String) : List (String × String) :=
  (splitChar ';' s.data).foldl (fun acc pair =>
    match splitChar '=' (trimChars pair) with
    | [] => acc
    | n :: vps =>
      if n.isEmpty then acc
      else setA acc (String.mk (trimChars n)) (String.mk (joinChar '=' vps))) []

/-- Model of `haystack.includes(needle)` on character lists. -/
def containsSeq (needle : List Char) : List Char → Bool
  | [] => needle.isEmpty
  | x :: xs => List.isPrefixOf needle (x :: xs) || containsSeq needle xs

/-- `name.toLowerCase().includes(pattern.toLowerCase())`. -/
def nameIncludes (name pat : String) : Bool :=
  containsSeq (lowerStr pat).data (lowerStr name).data

def cookieMatches (d : RequestDetails) : Bool :=
  match getHeader d.requestHeaders "cookie" with
  | none => false
  | some ch =>
    (parseCookies ch).any (fun p =>
      cookiePatternsDefault.any (fun pat => nameIncludes p.1 pat))

def cookiePriority : List String := ["session", "auth", "token", "jwt", "access_token"]

def cookieFold (cookies : List (String × String)) :
    List (String × String) × Option (String × String) :=
  cookies.foldl (fun acc p =>
    match cookiePatternsDefault.find? (fun pat => nameIncludes p.1 pat) with
    | some _ =>
      (setA acc.1 p.1 p.2,
       if acc.2.isNone ∨ cookiePriority.any (fun q => nameIncludes p.1 q) then
         some p
       else acc.2)
    | none => acc) ([], none)

def cookieExtract (d : RequestDetails) : Option ExtractRecord :=
  match getHeader d.requestHeaders "cookie" with
  | none => none
  | some ch =>
    match (cookieFold (parseCookies ch)).2 with
    | none => none
    | some p =>
      some { type := "cookie", value := p.2, cookieName := some p.1,
             allCookies := (cookieFold (parseCookies ch)).1, source := mkSource d }

/-! #### Query-param handler (`src/handlers/query-param-handler.js`), default
config. -/

def queryParamPatterns : List String :=
  ["api_key", "apikey", "api-key", "key", "token", "access_token", "auth_token",
   "auth", "secret", "api_secret", "client_id", "client_secret"]

/-- `searchParams.get(k)`: first value for the key. -/
def searchParamsGet (sp : List (String × String)) (k : String) : Option String :=
  (sp.find? (fun p => p.1 = k)).map Prod.snd

def queryParamMatches (d : RequestDetails) : Bool :=
  match parseURL d.url with
  | none => false
  | some u =>
    queryParamPatterns.any (fun pat => u.searchParams.any (fun p => p.1 = pat))

def queryPriority : List String := ["api_key", "apikey", "token", "access_token", "key"]

/-- The pattern loop of `QueryParamHandler.extract` (iterates the configured
pattern list; `if (value)` skips empty values). -/
def queryFold (u : URLRec) : List (String × String) × Option (String × String) :=
  queryParamPatterns.foldl (fun acc pat =>
    match searchParamsGet u.searchParams pat with
    | some v =>
      if v = "" then acc
      else
        (setA acc.1 pat v,
         if acc.2.isNone ∨ queryPriority.contains pat then some (pat, v) else acc.2)
    | none => acc) ([], none)

def queryParamExtract (d : RequestDetails) : Option ExtractRecord :=
  match parseURL d.url with
  | none => none
  | some u =>
    match (queryFold u).2 with
    | none => none
    | some p =>
      some { type := "query-param", value := p.2, paramName := some p.1,
             allParams := (queryFold u).1,
             source := { url := d.url, domain := u.hostname, method := d.method,
                         tabId := d.tabId } }

/-! #### Dispatcher (`HandlerManager` in `src/handlers/index.js`).
A handler's `process` may throw in JS; that is modelled with `Except`. -/

structure Handler where
  name : String
  process : RequestDetails → Except String (Option ExtractRecord)

/-- `BaseHandler.process`: skip when disabled or not matching, otherwise run
`extract` and attach the unit's registered name and display name. -/
def processUnit (name displayName : String) (enabled : Bool)
    (matchesFn : RequestDetails → Bool)
    (extractFn : RequestDetails → Option ExtractRecord)
    (d : RequestDetails) : Option ExtractRecord :=
  if !enabled || !matchesFn d then none
  else (extractFn d).map (fun r => { r with handler := name, displayName := displayName })

def authTokenHandler : Handler :=
  ⟨"auth-token", fun d =>
    Except.ok (processUnit "auth-token" "Auth Token" true authTokenMatches authTokenExtract d)⟩

def cookieHandler : Handler :=
  ⟨"cookie", fun d =>
    Except.ok (processUnit "cookie" "Session Cookie" true cookieMatches cookieExtract d)⟩

def queryParamHandler : Handler :=
  ⟨"query-param", fun d =>
    Except.ok (processUnit "query-param" "Query Param" true queryParamMatches queryParamExtract d)⟩

/-- The built-in handler list the manager installs at default config. -/
def defaultHandlers : List Handler := [authTokenHandler, cookieHandler, queryParamHandler]

/-- `HandlerManager.processRequest`: run every unit, push non-null results,
and catch (log-only) any exception a unit throws. -/
def processRequest (handlers : List Handler) (d : RequestDetails) :
    List ExtractRecord :=
  handlers.foldl (fun results h =>
    match h.process d with
    | Except.ok (some r) => results ++ [r]
    | Except.ok none => results
    | Except.error _ => results) []

/-! ### Identity key (`generateKey` in `src/background/service-worker.js`). -/

def generateKey (result : ExtractRecord) : String :=
  (if result.source.domain = "" then "unknown" else result.source.domain) ++ "::" ++
    normalizePathPattern (result.source.path.getD "") ++ "::" ++
    (if result.type = "" then "unknown" else result.type) ++
    (if result.headerName.getD "" = "" then ""
     else "::" ++ result.headerName.getD "")

/-! ### Identity & rotation engine (`updateCapturedItem`, `addToExpiredTokens`,
`addToHistory` in `src/lib/storage.js`).  The three persisted collections are
threaded as one explicit state value. -/

structure Item where
  record : ExtractRecord
  capturedAt : Nat
  lastSeenAt : Option Nat := none
  status : String
  rotationCount : Nat
  lastRotatedAt : Option Nat := none
  previousValue : Option String := none
  previousCapturedAt : Option Nat := none
deriving DecidableEq

structure ExpiredEntry where
  key : String
  value : String
  type : String
  source : Source
  displayName : String
  capturedAt : Nat
  expiredAt : Nat
  tokenType : Option String
  headerName : Option String
deriving DecidableEq

structure HistoryEntry where
  key : String
  value : String
  type : String
  source : Source
  timestamp : Nat
  event : String
deriving DecidableEq

structure StoreState where
  data : List (String × Item) := []
  expiredTokens : List ExpiredEntry := []
  history : List HistoryEntry := []
deriving DecidableEq

def emptyState : StoreState := {}

def MAX_HISTORY_ITEMS : Nat := 100

def MAX_EXPIRED_TOKENS : Nat := 50

def MAX_TRACKED_DOMAINS : Nat := 50

def MAX_ENDPOINTS_PER_DOMAIN : Nat := 200

/-- The snapshot `addToExpiredTokens` builds from the replaced item. -/
def expiredSnapshot (key : String) (item : Item) (now : Nat) : ExpiredEntry :=
  { key, value := item.record.value, type := item.record.type,
    source := item.record.source, displayName := item.record.displayName,
    capturedAt := item.capturedAt, expiredAt := now,
    tokenType := item.record.tokenType, headerName := item.record.headerName }

/-- `addToExpiredTokens`: unshift the snapshot, then `splice(MAX)` (keep the
first `MAX` entries). -/
def addToExpiredTokens (key : String) (item : Item) (now : Nat)
    (expired : List ExpiredEntry) : List ExpiredEntry :=
  List.take MAX_EXPIRED_TOKENS (expiredSnapshot key item now :: expired)

def historyEntry (key : String) (v : ExtractRecord) (now : Nat)
    (isRotation : Bool) : HistoryEntry :=
  { key, value := v.value, type := v.type, source := v.source, timestamp := now,
    event := if isRotation then "rotation" else "capture" }

/-- `addToHistory`: unshift the event, then `splice(MAX)`. -/
def addToHistory (key : String) (v : ExtractRecord) (now : Nat)
    (isRotation : Bool) (history : List HistoryEntry) : List HistoryEntry :=
  List.take MAX_HISTORY_ITEMS (historyEntry key v now isRotation :: history)

structure PreviousToken where
  value : String
  capturedAt : Nat
  expiredAt : Nat
deriving DecidableEq

structure UpdateResult where
  state : StoreState
  rotationDetected : Bool
  previousToken : Option PreviousToken
deriving DecidableEq

/-- The entry created for a first observation (`rotationCount: 0`). -/
def newItem (v : ExtractRecord) (now : Nat) : Item :=
  { record := v, capturedAt := now, status := "active", rotationCount := 0 }

/-- The replacement entry written on rotation. -/
def rotatedItem (v : ExtractRecord) (existing : Item) (now : Nat) : Item :=
  { record := v, capturedAt := now, status := "active",
    rotationCount := existing.rotationCount + 1, lastRotatedAt := some now,
    previousValue := some existing.record.value,
    previousCapturedAt := some existing.capturedAt }

/-- `updateCapturedItem(key, value)` with the current time and store state
made explicit. -/
def updateCapturedItem (key : String) (v : ExtractRecord) (now : Nat)
    (st : StoreState) : UpdateResult :=
  match lookupA st.data key with
  | some existing =>
    if existing.record.value ≠ v.value then
      { state := { data := setA st.data key (rotatedItem v existing now),
                   expiredTokens := addToExpiredTokens key existing now st.expiredTokens,
                   history := addToHistory key v now true st.history },
        rotationDetected := true,
        previousToken := some ⟨existing.record.value, existing.capturedAt, now⟩ }
    else
      { state := { data := setA st.data key { existing with lastSeenAt := some now },
                   expiredTokens := st.expiredTokens,
                   history := addToHistory key v now false st.history },
        rotationDetected := false, previousToken := none }
  | none =>
    { state := { data := setA st.data key (newItem v now),
                 expiredTokens := st.expiredTokens,
                 history := addToHistory key v now false st.history },
      rotationDetected := false, previousToken := none }

/-- A sequence of update operations (key, extraction record, time). -/
def runUpdates (ops : List (String × ExtractRecord × Nat)) (st : StoreState) :
    StoreState :=
  ops.foldl (fun s op => (updateCapturedItem op.1 op.2.1 op.2.2 s).state) st

/-! ### Endpoint usage aggregator (`trackApiRequest` and helpers in
`src/lib/storage.js`). -/

structure TrackerStats where
  uniqueEndpoints : Nat
  byApiDomain : List (String × Nat)
  byMethod : List (String × Nat)
deriving DecidableEq

structure Endpoint where
  apiDomain : String
  path : String
  normalizedPath : String
  method : String
  queryParams : List String
  queryParamExamples : List (String × List String)
  hasAuth : Bool
  authType : Option String
  count : Nat
  firstSeen : Nat
  lastSeen : Nat
  exampleUrl : String
  exampleUrls : List String
deriving DecidableEq

structure DomainData where
  displayName : String
  lastVisited : Nat
  totalRequests : Nat
  endpoints : List (String × Endpoint)
  stats : TrackerStats
deriving DecidableEq

abbrev Tracker : Type := List (String × DomainData)

def MAX_PARAM_EXAMPLES : Nat := 5

/-- `detectAuthType(requestHeaders)`: first recognized auth header decides,
classified by a case-insensitive `Bearer ` / `Basic ` value prefix. -/
def detectAuthType : List Header → Bool × Option String
  | [] => (false, none)
  | h :: t =>
    if ["authorization", "x-auth-token", "x-api-key", "x-access-token"].contains
        (lowerStr h.name) then
      if List.isPrefixOf "bearer ".data (lowerStr h.value).data then (true, some "bearer")
      else if List.isPrefixOf "basic ".data (lowerStr h.value).data then (true, some "basic")
      else (true, some "token")
    else detectAuthType t

/-- `extractQueryParamsWithValues`: per-key example values, unique, capped at
`MAX_PARAM_EXAMPLES`; a key is recorded even when its value is not kept. -/
def extractQueryParamsWithValues (sp : List (String × String)) :
    List (String × List String) :=
  sp.foldl (fun params kv =>
    if kv.2 ∉ (lookupA params kv.1).getD [] ∧
        ((lookupA params kv.1).getD []).length < MAX_PARAM_EXAMPLES then
      setA params kv.1 ((lookupA params kv.1).getD [] ++ [kv.2])
    else setA params kv.1 ((lookupA params kv.1).getD [])) []

/-- `mergeParamExamples(existing, newParams)`. -/
def mergeParamExamples (existing newParams : List (String × List String)) :
    List (String × List String) :=
  newParams.foldl (fun merged kv =>
    kv.2.foldl (fun m v =>
      if v ∉ (lookupA m kv.1).getD [] ∧
          ((lookupA m kv.1).getD []).length < MAX_PARAM_EXAMPLES then
        setA m kv.1 ((lookupA m kv.1).getD [] ++ [v])
      else setA m kv.1 ((lookupA m kv.1).getD []))
      (setA merged kv.1 ((lookupA merged kv.1).getD []))) existing

/-- `new Set(existing).add(each of extra)` then `Array.from`: first
occurrences in order. -/
def dedupAppend (l extra : List String) : List String :=
  (l ++ extra).foldl (fun acc p => if p ∈ acc then acc else acc ++ [p]) []

/-- `Object.entries(m).sort(([,a],[,b]) => f(a) - f(b))[0][0]`: the JS sort is
stable, so this is the leftmost key with minimal `f`. -/
def minKeyBy {β : Type} (f : β → Nat) : List (String × β) → Option String
  | [] => none
  | (k, v) :: t =>
    some (t.foldl (fun best p => if f p.2 < best.2 then (p.1, f p.2) else best)
      (k, f v)).1

def endpointKeyOf (apiDomain normalizedPath method : String) : String :=
  apiDomain ++ "::" ++ normalizedPath ++ "::" ++ method

def initDomainData (pageDomain : String) (now : Nat) : DomainData :=
  { displayName := pageDomain, lastVisited := now, totalRequests := 0,
    endpoints := [],
    stats := { uniqueEndpoints := 0, byApiDomain := [], byMethod := [] } }

/-- `(stats.m[k] || 0) + 1` written back to `stats.m[k]`. -/
def bumpCount (m : List (String × Nat)) (k : String) : List (String × Nat) :=
  setA m k ((lookupA m k).getD 0 + 1)

/-- The existing-endpoint branch of `trackApiRequest`.  The legacy guard
`if (!endpoint.exampleUrls)` is omitted: entries created by this code always
carry `exampleUrls`, modelled as a total field. -/
def updateExistingEndpoint (ep : Endpoint) (url : String)
    (queryParams : List String) (qpe : List (String × List String))
    (hasAuth : Bool) (authType : Option String) (now : Nat) : Endpoint :=
  let ep1 := { ep with
                count := ep.count + 1, lastSeen := now,
                queryParams := dedupAppend ep.queryParams queryParams,
                queryParamExamples := mergeParamExamples ep.queryParamExamples qpe }
  let ep2 :=
    if hasAuth && !ep1.hasAuth then
      { ep1 with hasAuth := hasAuth, authType := authType }
    else ep1
  if url ∉ ep2.exampleUrls ∧ ep2.exampleUrls.length < 3 then
    { ep2 with exampleUrls := ep2.exampleUrls ++ [url] }
  else ep2

def newEndpoint (apiDomain path normalizedPath method : String)
    (queryParams : List String) (qpe : List (String × List String))
    (hasAuth : Bool) (authType : Option String) (now : Nat) (url : String) :
    Endpoint :=
  { apiDomain, path, normalizedPath, method, queryParams,
    queryParamExamples := qpe, hasAuth, authType, count := 1, firstSeen := now,
    lastSeen := now, exampleUrl := url, exampleUrls := [url] }

/-- Everything `trackApiRequest` does inside one page-domain bucket. -/
def updateDomainData (dd : DomainData) (u : URLRec) (rd : RequestDetails)
    (now : Nat) : DomainData :=
  let dd1 := { dd with lastVisited := now, totalRequests := dd.totalRequests + 1 }
  match lookupA dd1.endpoints
      (endpointKeyOf u.hostname (normalizeApiPath u.pathname) rd.method) with
  | some ep =>
    { dd1 with
      endpoints := setA dd1.endpoints
        (endpointKeyOf u.hostname (normalizeApiPath u.pathname) rd.method)
        (updateExistingEndpoint ep rd.url (u.searchParams.map Prod.fst)
          (extractQueryParamsWithValues u.searchParams)
          (detectAuthType rd.requestHeaders).1 (detectAuthType rd.requestHeaders).2
          now),
      stats := { dd1.stats with byMethod := bumpCount dd1.stats.byMethod rd.method } }
  | none =>
    let endpoints0 :=
      if MAX_ENDPOINTS_PER_DOMAIN ≤ dd1.endpoints.length then
        match minKeyBy Endpoint.lastSeen dd1.endpoints with
        | some oldest => removeA dd1.endpoints oldest
        | none => dd1.endpoints
      else dd1.endpoints
    let endpoints1 := setA endpoints0
      (endpointKeyOf u.hostname (normalizeApiPath u.pathname) rd.method)
      (newEndpoint u.hostname u.pathname (normalizeApiPath u.pathname) rd.method
        (u.searchParams.map Prod.fst) (extractQueryParamsWithValues u.searchParams)
        (detectAuthType rd.requestHeaders).1 (detectAuthType rd.requestHeaders).2
        now rd.url)
    { dd1 with
      endpoints := endpoints1,
      stats := { uniqueEndpoints := endpoints1.length,
                 byApiDomain := bumpCount dd1.stats.byApiDomain u.hostname,
                 byMethod := bumpCount dd1.stats.byMethod rd.method } }

/-- `trackApiRequest(pageDomain, {url, method, requestHeaders})` with time and
tracker state explicit.  A parse failure returns the tracker unchanged; after
the bucket update the domain cap evicts the least-recently-visited bucket
other than the current one. -/
def trackApiRequest (pageDomain : String) (rd : RequestDetails) (now : Nat)
    (tracker : Tracker) : Tracker :=
  match parseURL rd.url with
  | none => tracker
  | some u =>
    let t1 : Tracker := setA tracker pageDomain
      (updateDomainData ((lookupA tracker pageDomain).getD
        (initDomainData pageDomain now)) u rd now)
    if MAX_TRACKED_DOMAINS < t1.length then
      match minKeyBy DomainData.lastVisited
          (t1.filter (fun p => p.1 ≠ pageDomain)) with
      | some oldest => removeA t1 oldest
      | none => t1
    else t1

/-! ### Concrete inputs used by the end-to-end and witness theorems -/

/-- The request of the spec's end-to-end scenario:
`GET https://api.example.com/v1/users/123` with `Authorization: Bearer abc123`. -/
def c1Request : RequestDetails :=
  { url := "https://api.example.com/v1/users/123", method := "GET",
    requestHeaders := [⟨"Authorization", "Bearer abc123"⟩], tabId := 1 }

/-- The identity key the specification claims for the scenario. -/
def c1ClaimedKey : String := "api.example.com::/v1/users/*::auth-token::Authorization"

/-- The key the code actually produces (no `path` in any handler `source`). -/
def c1ActualKey : String := "api.example.com::::auth-token::Authorization"

def sampleSource : Source :=
  { url := "https://a.example/x", domain := "a.example", method := "GET", tabId := 1 }

def recOld : ExtractRecord := { type := "auth-token", value := "v1", source := sampleSource }

def recNew : ExtractRecord := { type := "auth-token", value := "v2", source := sampleSource }

def c2State : StoreState := { data := [("k", newItem recOld 5)] }

/-- A handler unit whose `process` throws, for the dispatcher fault witness. -/
def throwingHandler : Handler := ⟨"bad", fun _ => Except.error "boom"⟩

def c5Request : RequestDetails :=
  { url := "https://api.stockbit.com/v1/portfolio", method := "GET",
    requestHeaders := [], tabId := 2 }

/-- The same request tracked twice for the same page domain. -/
def c5TrackerTwice : Tracker :=
  trackApiRequest "stockbit.com" c5Request 20
    (trackApiRequest "stockbit.com" c5Request 10 ([] : Tracker))

def c5URL : URLRec :=
  { hostname := "api.stockbit.com", pathname := "/v1/portfolio", searchParams := [] }

/-- The history list is ordered most-recent-first by timestamp. -/
def histDesc (l : List HistoryEntry) : Prop :=
  List.Pairwise (fun a b => b.timestamp ≤ a.timestamp) l

/-- The expired-token list is ordered most-recent-first by expiry time. -/
def expDesc (l : List ExpiredEntry) : Prop :=
  List.Pairwise (fun a b => b.expiredAt ≤ a.expiredAt) l

/-- Invariant of the store after updates up to time `t`: both bounded lists
respect their caps, are ordered most-recent-first, and contain no entry from
the future. -/
def StoreInv (st : StoreState) (t : Nat) : Prop :=
  st.history.length ≤ MAX_HISTORY_ITEMS ∧
  st.expiredTokens.length ≤ MAX_EXPIRED_TOKENS ∧
  histDesc st.history ∧ expDesc st.expiredTokens ∧
  (∀ e ∈ st.history, e.timestamp ≤ t) ∧
  (∀ e ∈ st.expiredTokens, e.expiredAt ≤ t)

/-- The operation sequence used by the C4 witness: a capture then a rotation. -/
def c4Ops : List (String × ExtractRecord × Nat) := [("k", recOld, 5), ("k", recNew, 7)]

/-! ### Theorems -/

theorem splitChar_ne_nil (c : Char) (l : List Char) : splitChar c l ≠ [] := by
  cases l with
  | nil => simp [splitChar]
  | cons x xs =>
    simp only [splitChar]
    cases h : splitChar c xs with
    | nil => simp
    | cons s rest =>
      by_cases hx : x = c <;> simp [hx]

theorem joinChar_cons_of_ne_nil (c : Char) (s : List Char) (l : List (List Char))
    (h : l ≠ []) : joinChar c (s :: l) = s ++ c :: joinChar c l := by
  cases l with
  | nil => exact absurd rfl h
  | cons t rest => rfl

theorem joinChar_splitChar (c : Char) (l : List Char) :
    joinChar c (splitChar c l) = l := by
  induction l with
  | nil => rfl
  | cons x xs ih =>
    cases h : splitChar c xs with
    | nil => exact absurd h (splitChar_ne_nil c xs)
    | cons s rest =>
      rw [h] at ih
      by_cases hx : x = c
      · have h1 : splitChar c (x :: xs) = [] :: s :: rest := by
          simp [splitChar, h, hx]
        rw [h1, joinChar_cons_of_ne_nil c [] (s :: rest) (by simp),
          List.nil_append, ih, hx]
      · have h1 : splitChar c (x :: xs) = (x :: s) :: rest := by
          simp [splitChar, h, hx]
        rw [h1]
        cases rest with
        | nil =>
          have hsx : s = xs := ih
          rw [hsx]
          rfl
        | cons t rs =>
          rw [joinChar_cons_of_ne_nil c (x :: s) (t :: rs) (by simp)]
          rw [joinChar_cons_of_ne_nil c s (t :: rs) (by simp)] at ih
          rw [List.cons_append, ih]

theorem not_mem_of_mem_splitChar {c : Char} {l : List Char} {s : List Char}
    (hs : s ∈ splitChar c l) : c ∉ s := by
  induction l generalizing s with
  | nil =>
    simp [splitChar] at hs
    simp [hs]
  | cons x xs ih =>
    cases h : splitChar c xs with
    | nil => exact absurd h (splitChar_ne_nil c xs)
    | cons t rest =>
      by_cases hx : x = c
      · have h1 : splitChar c (x :: xs) = [] :: t :: rest := by
          simp [splitChar, h, hx]
        rw [h1] at hs
        rcases List.mem_cons.1 hs with hs | hs
        · simp [hs]
        · exact ih (h ▸ hs)
      · have h1 : splitChar c (x :: xs) = (x :: t) :: rest := by
          simp [splitChar, h, hx]
        rw [h1] at hs
        rcases List.mem_cons.1 hs with hs | hs
        · subst hs
          intro hc
          rcases List.mem_cons.1 hc with hc | hc
          · exact hx hc.symm
          · exact ih (h ▸ List.mem_cons_self t rest) hc
        · exact ih (h ▸ List.mem_cons_of_mem t hs)

theorem splitChar_of_not_mem {c : Char} {s : List Char} (h : c ∉ s) :
    splitChar c s = [s] := by
  induction s with
  | nil => rfl
  | cons x xs ih =>
    have hx : x ≠ c := fun he => h (he ▸ List.mem_cons_self x xs)
    have hxs : c ∉ xs := fun hm => h (List.mem_cons_of_mem x hm)
    simp [splitChar, ih hxs, hx]

theorem splitChar_append_cons {c : Char} {s : List Char} (l : List Char)
    (h : c ∉ s) : splitChar c (s ++ c :: l) = s :: splitChar c l := by
  induction s with
  | nil =>
    cases hl : splitChar c l with
    | nil => exact absurd hl (splitChar_ne_nil c l)
    | cons t rest => simp [splitChar, hl]
  | cons x xs ih =>
    have hx : x ≠ c := fun he => h (he ▸ List.mem_cons_self x xs)
    have hxs : c ∉ xs := fun hm => h (List.mem_cons_of_mem x hm)
    have h1 := ih hxs
    rw [List.cons_append]
    cases h2 : splitChar c (xs ++ c :: l) with
    | nil => exact absurd h2 (splitChar_ne_nil c _)
    | cons t rest =>
      rw [h2] at h1
      obtain ⟨ht, hrest⟩ := List.cons.injEq t rest xs (splitChar c l) ▸ h1
      simp [splitChar, h2, hx, ht, hrest]

theorem splitChar_joinChar {c : Char} {ss : List (List Char)}
    (hss : ss ≠ []) (h : ∀ s ∈ ss, c ∉ s) :
    splitChar c (joinChar c ss) = ss := by
  induction ss with
  | nil => exact absurd rfl hss
  | cons s rest ih =>
    cases rest with
    | nil =>
      simp only [joinChar]
      exact splitChar_of_not_mem (h s (List.mem_cons_self s []))
    | cons t rs =>
      rw [joinChar_cons_of_ne_nil _ _ _ (by simp)]
      rw [splitChar_append_cons _ (h s (List.mem_cons_self s _))]
      rw [ih (by simp) (fun u hu => h u (List.mem_cons_of_mem s hu))]

theorem mem_of_mem_splitChar {c x : Char} {l s : List Char}
    (hs : s ∈ splitChar c l) (hx : x ∈ s) : x ∈ l := by
  induction l generalizing s with
  | nil =>
    simp [splitChar] at hs
    subst hs
    exact absurd hx (List.not_mem_nil x)
  | cons y ys ih =>
    cases h : splitChar c ys with
    | nil => exact absurd h (splitChar_ne_nil c ys)
    | cons t rest =>
      by_cases hy : y = c
      · have h1 : splitChar c (y :: ys) = [] :: t :: rest := by
          simp [splitChar, h, hy]
        rw [h1] at hs
        rcases List.mem_cons.1 hs with hs | hs
        · subst hs; exact absurd hx (List.not_mem_nil x)
        · exact List.mem_cons_of_mem y (ih (h ▸ hs) hx)
      · have h1 : splitChar c (y :: ys) = (y :: t) :: rest := by
          simp [splitChar, h, hy]
        rw [h1] at hs
        rcases List.mem_cons.1 hs with hs | hs
        · subst hs
          rcases List.mem_cons.1 hx with hx | hx
          · exact hx ▸ List.mem_cons_self y ys
          · exact List.mem_cons_of_mem y (ih (h ▸ List.mem_cons_self t rest) hx)
        · exact List.mem_cons_of_mem y (ih (h ▸ List.mem_cons_of_mem t hs) hx)

theorem mem_joinChar {c x : Char} {ss : List (List Char)}
    (hx : x ∈ joinChar c ss) : x = c ∨ ∃ s ∈ ss, x ∈ s := by
  induction ss with
  | nil => exact absurd hx (List.not_mem_nil x)
  | cons s rest ih =>
    cases rest with
    | nil =>
      right
      exact ⟨s, List.mem_cons_self s [], by simpa [joinChar] using hx⟩
    | cons t rs =>
      rw [joinChar_cons_of_ne_nil _ _ _ (by simp)] at hx
      rcases List.mem_append.1 hx with hx | hx
      · exact Or.inr ⟨s, List.mem_cons_self s _, hx⟩
      · rcases List.mem_cons.1 hx with hx | hx
        · exact Or.inl hx
        · rcases ih hx with hc | ⟨u, hu, hxu⟩
          · exact Or.inl hc
          · exact Or.inr ⟨u, List.mem_cons_of_mem s hu, hxu⟩

theorem takeWhile_eq_self_of {p : Char → Bool} {l : List Char}
    (h : ∀ x ∈ l, p x = true) : l.takeWhile p = l := by
  induction l with
  | nil => rfl
  | cons x xs ih =>
    simp [List.takeWhile, h x (List.mem_cons_self x xs),
      ih (fun y hy => h y (List.mem_cons_of_mem x hy))]

/-- `String.mk` and `String.data` are inverse; used to move between the
string-level source functions and the character-list lemmas. -/
theorem strMk_data (s : String) : String.mk s.data = s := by
  cases s
  rfl

theorem lookupA_setA_self {β : Type} (l : List (String × β)) (k : String) (v : β) :
    lookupA (setA l k v) k = some v := by
  induction l with
  | nil => simp [setA, lookupA]
  | cons p t ih =>
    obtain ⟨k1, w⟩ := p
    by_cases h : k1 = k
    · simp [setA, h, lookupA]
    · simp [setA, h, lookupA, ih]

theorem lookupA_setA_ne {β : Type} (l : List (String × β)) {k k1 : String} (v : β)
    (h : k ≠ k1) : lookupA (setA l k1 v) k = lookupA l k := by
  have hne : ¬k1 = k := Ne.symm h
  induction l with
  | nil => simp [setA, lookupA, hne]
  | cons p t ih =>
    obtain ⟨k2, w⟩ := p
    by_cases h2 : k2 = k1
    · subst h2
      simp [setA, lookupA, hne]
    · simp [setA, h2, lookupA, ih]

theorem lookupA_removeA_ne {β : Type} (l : List (String × β)) {k k1 : String}
    (h : k ≠ k1) : lookupA (removeA l k1) k = lookupA l k := by
  have hne : ¬k1 = k := Ne.symm h
  induction l with
  | nil => simp [removeA]
  | cons p t ih =>
    obtain ⟨k2, w⟩ := p
    by_cases h2 : k2 = k1
    · subst h2
      simp [removeA, lookupA, hne, ih]
    · simp [removeA, h2, lookupA, ih]

theorem mapSeg_star : mapSeg ['*'] = ['*'] := by decide

theorem mapSeg_idem (s : List Char) : mapSeg (mapSeg s) = mapSeg s := by
  by_cases h1 : isUUIDSeg s
  · simp [mapSeg, h1, mapSeg_star]
  · by_cases h2 : isNumericSeg s
    · simp [mapSeg, h1, h2, mapSeg_star]
    · by_cases h3 : isLongAlnumSeg s
      · simp [mapSeg, h1, h2, h3, mapSeg_star]
      · simp [mapSeg, h1, h2, h3]

theorem not_mem_mapSeg {c : Char} {s : List Char} (hc : c ∉ s) (hstar : c ≠ '*') :
    c ∉ mapSeg s := by
  by_cases h1 : isUUIDSeg s
  · simpa [mapSeg, h1] using hstar
  · by_cases h2 : isNumericSeg s
    · simpa [mapSeg, h1, h2] using hstar
    · by_cases h3 : isLongAlnumSeg s
      · simpa [mapSeg, h1, h2, h3] using hstar
      · simpa [mapSeg, h1, h2, h3] using hc

theorem normSegs_idem (l : List Char) : normSegs (normSegs l) = normSegs l := by
  have hne : (splitChar '/' l).map mapSeg ≠ [] := by
    intro h
    exact splitChar_ne_nil '/' l (List.map_eq_nil_iff.1 h)
  have hmem : ∀ s ∈ (splitChar '/' l).map mapSeg, '/' ∉ s := by
    intro s hs
    rcases List.mem_map.1 hs with ⟨t, ht, rfl⟩
    exact not_mem_mapSeg (not_mem_of_mem_splitChar ht) (by decide)
  unfold normSegs
  rw [splitChar_joinChar hne hmem, List.map_map]
  have : mapSeg ∘ mapSeg = mapSeg := funext mapSeg_idem
  rw [this]

theorem no_query_in_normSegs {l : List Char} (h : '?' ∉ l) :
    '?' ∉ normSegs l := by
  intro hmem
  rcases mem_joinChar hmem with hc | ⟨s, hs, hxs⟩
  · exact absurd hc (by decide)
  · rcases List.mem_map.1 hs with ⟨t, ht, rfl⟩
    have : '?' ∉ mapSeg t :=
      not_mem_mapSeg (fun hm => h (mem_of_mem_splitChar ht hm)) (by decide)
    exact this hxs

theorem normalizeApiPath_idem (p : String) :
    normalizeApiPath (normalizeApiPath p) = normalizeApiPath p := by
  by_cases hp : p = ""
  · simp [normalizeApiPath, hp]
  · have hpv : normalizeApiPath p = String.mk (normSegs p.data) := by
      rw [normalizeApiPath, if_neg hp]
    by_cases hq : normalizeApiPath p = ""
    · rw [hq]
      simp [normalizeApiPath]
    · rw [normalizeApiPath, if_neg hq, hpv]
      exact congrArg String.mk (normSegs_idem p.data)

theorem normalizePathPattern_idem (p : String) :
    normalizePathPattern (normalizePathPattern p) = normalizePathPattern p := by
  by_cases hp : p = ""
  · simp [normalizePathPattern, hp]
  · have hpv : normalizePathPattern p =
        String.mk (normSegs (p.data.takeWhile (fun c => c ≠ '?'))) := by
      rw [normalizePathPattern, if_neg hp]
    by_cases hq : normalizePathPattern p = ""
    · rw [hq]
      simp [normalizePathPattern]
    · rw [normalizePathPattern, if_neg hq, hpv]
      have hnq : '?' ∉ normSegs (p.data.takeWhile (fun c => c ≠ '?')) := by
        refine no_query_in_normSegs ?_
        intro hmem
        have := List.mem_takeWhile_imp hmem
        simp at this
      have hs2 : List.takeWhile (fun c => c ≠ '?')
          (String.mk (normSegs (p.data.takeWhile (fun c => c ≠ '?')))).data =
          normSegs (p.data.takeWhile (fun c => c ≠ '?')) := by
        refine takeWhile_eq_self_of ?_
        intro x hx
        have hxne : x ≠ '?' := fun he => hnq (he ▸ hx)
        simp [hxne]
      rw [hs2]
      exact congrArg String.mk (normSegs_idem (p.data.takeWhile (fun c => c ≠ '?')))

theorem shouldCaptureDomain_eq_spec (domain : Option String) (config : Config) :
    shouldCaptureDomain domain config = shouldCaptureDomainSpec domain config := by
  cases domain with
  | none => rfl
  | some d =>
    simp only [shouldCaptureDomain, shouldCaptureDomainSpec]
    by_cases hd : d = ""
    · simp [hd]
    · rw [if_neg hd, if_neg hd]
      by_cases hb : config.domainBlocklist.any (fun p => matchDomainPattern d p)
      · have hlen : config.domainBlocklist.length > 0 := by
          cases hcfg : config.domainBlocklist with
          | nil => rw [hcfg] at hb; simp at hb
          | cons a t => simp
        rw [if_pos ⟨hlen, hb⟩, if_pos hb]
      · have : ¬(config.domainBlocklist.length > 0 ∧
            config.domainBlocklist.any (fun p => matchDomainPattern d p)) :=
          fun hc => hb hc.2
        rw [if_neg this, if_neg hb]
        by_cases ha : config.domainAllowlist = []
        · simp [ha]
        · have : config.domainAllowlist.length ≠ 0 := by
            simpa [List.length_eq_zero] using ha
          rw [if_neg this, if_neg ha]

theorem lastN_of_le {α : Type} {n : Nat} {l : List α} (h : l.length ≤ n) :
    lastN n l = l := by
  unfold lastN
  rw [Nat.sub_eq_zero_of_le h, List.drop_zero]

theorem extractRootDomain_eq_spec (h : String) :
    extractRootDomain h = extractRootDomainSpec h := by
  by_cases h0 : h = ""
  · subst h0
    decide
  · unfold extractRootDomain extractRootDomainSpec
    rw [if_neg h0]
    by_cases h1 : h = "localhost" ∨ isDottedQuadIP h.data
    · rw [if_pos h1, if_pos h1]
    · rw [if_neg h1, if_neg h1]
      by_cases h2 : (splitChar '.' h.data).length ≤ 2
      · have e2 : lastN 2 (splitChar '.' h.data) = splitChar '.' h.data :=
          lastN_of_le h2
        have e3 : lastN 3 (splitChar '.' h.data) = splitChar '.' h.data :=
          lastN_of_le (by omega)
        rw [if_pos h2, e3, e2, joinChar_splitChar, strMk_data, ite_self]
      · rw [if_neg h2]

/-! ### Claim theorems -/

/-- Claim C6: path normalization is idempotent — normalizing an
already-normalized path returns it unchanged, for both `normalizeApiPath`
and `normalizePathPattern` — and `/users/42/profile` normalizes to
`/users/*/profile` while `/items/550e8400-e29b-41d4-a716-446655440000`
normalizes to `/items/*`. -/
theorem claim_C6_normalization_idempotent :
    (∀ p : String, normalizeApiPath (normalizeApiPath p) = normalizeApiPath p) ∧
    (∀ p : String,
      normalizePathPattern (normalizePathPattern p) = normalizePathPattern p) ∧
    normalizeApiPath "/users/42/profile" = "/users/*/profile" ∧
    normalizeApiPath "/items/550e8400-e29b-41d4-a716-446655440000" = "/items/*" :=
  ⟨normalizeApiPath_idem, normalizePathPattern_idem, by decide, by decide⟩

/-- Claim C7: the domain filter checks the block-list first and rejects any
blocked domain regardless of the allow-list; a non-blocked non-empty domain
is accepted when the allow-list is empty and otherwise exactly when it
matches some allow pattern; an empty or null domain always rejects.  The
stated examples behave as claimed. -/
theorem claim_C7_domain_filter :
    (∀ (d : Option String) (cfg : Config),
      shouldCaptureDomain d cfg = shouldCaptureDomainSpec d cfg) ∧
    (∀ cfg : Config, shouldCaptureDomain none cfg = false) ∧
    (∀ cfg : Config, shouldCaptureDomain (some "") cfg = false) ∧
    shouldCaptureDomain (some "ads.example.com")
      ⟨[], ["ads.example.com", "*.tracker.com"]⟩ = false ∧
    shouldCaptureDomain (some "sub.tracker.com")
      ⟨[], ["ads.example.com", "*.tracker.com"]⟩ = false ∧
    shouldCaptureDomain (some "api.other.org")
      ⟨[], ["ads.example.com", "*.tracker.com"]⟩ = true ∧
    shouldCaptureDomain (some "other.com")
      ⟨["api.myapp.com", "*.service.com"], []⟩ = false ∧
    shouldCaptureDomain (some "api.myapp.com")
      ⟨["api.myapp.com", "*.service.com"], []⟩ = true ∧
    shouldCaptureDomain (some "x.service.com")
      ⟨["api.myapp.com", "*.service.com"], []⟩ = true :=
  ⟨shouldCaptureDomain_eq_spec, fun _ => rfl, fun _ => rfl, by decide, by decide,
    by decide, by decide, by decide, by decide⟩

/-- Claim C8: root-domain extraction returns `localhost` and dotted-quad IP
literals unchanged and otherwise keeps the last two labels, or the last three
over a known multi-part TLD; with the four stated examples. -/
theorem claim_C8_root_domain :
    (∀ h : String, extractRootDomain h = extractRootDomainSpec h) ∧
    extractRootDomain "app.stockbit.com" = "stockbit.com" ∧
    extractRootDomain "app.example.co.uk" = "example.co.uk" ∧
    extractRootDomain "localhost" = "localhost" ∧
    extractRootDomain "192.168.1.1" = "192.168.1.1" :=
  ⟨extractRootDomain_eq_spec, by decide, by decide, by decide, by decide⟩

theorem matchDomainPattern_wildcard_self (S : String) :
    matchDomainPattern S ("*." ++ S) = true := by
  have hdata : ("*." ++ S).data = '*' :: '.' :: S.data := by
    rw [String.data_append]
    rfl
  have hne : ¬("*." ++ S) = "" := by
    intro he
    have : ('*' :: '.' :: S.data : List Char) = [] := by
      rw [← hdata, he]
    simp at this
  have hneq : ¬S = ("*." ++ S) := by
    intro he
    have : S.data.length = ('*' :: '.' :: S.data).length := by
      rw [← hdata, ← he]
    simp at this
    omega
  unfold matchDomainPattern
  rw [if_neg hne, if_neg hneq, hdata]
  simp

/-- Claim C10: a wildcard block pattern `*.S` also matches the bare domain
`S` itself, so any configuration whose block-list contains `*.S` rejects `S`. -/
theorem claim_C10_wildcard_matches_bare (S : String) (cfg : Config)
    (h : ("*." ++ S) ∈ cfg.domainBlocklist) :
    shouldCaptureDomain (some S) cfg = false := by
  by_cases hS : S = ""
  · simp [shouldCaptureDomain, hS]
  · have hany : cfg.domainBlocklist.any (fun p => matchDomainPattern S p) = true :=
      List.any_eq_true.2 ⟨"*." ++ S, h, matchDomainPattern_wildcard_self S⟩
    have hlen : cfg.domainBlocklist.length > 0 := by
      cases hcfg : cfg.domainBlocklist with
      | nil => rw [hcfg] at h; exact absurd h (List.not_mem_nil _)
      | cons a t => simp
    unfold shouldCaptureDomain
    dsimp only
    rw [if_neg hS, if_pos ⟨hlen, hany⟩]

/-- Witness for claim C10 at `S = "tracker.com"` with block-list
`["*.tracker.com"]`. -/
theorem claim_C10_witness :
    ("*." ++ "tracker.com") ∈
      (⟨[], ["*.tracker.com"]⟩ : Config).domainBlocklist ∧
    shouldCaptureDomain (some "tracker.com")
      ⟨[], ["*.tracker.com"]⟩ = false :=
  ⟨by decide,
    claim_C10_wildcard_matches_bare "tracker.com" ⟨[], ["*.tracker.com"]⟩ (by decide)⟩

/-- Claim C9: a unit that throws during processing does not abort the
dispatcher: `processRequest` returns exactly the results the remaining units
produce, and the throwing unit contributes no record. -/
theorem claim_C9_fault_isolation (pre post : List Handler) (u : Handler)
    (d : RequestDetails) (err : String)
    (hthrow : u.process d = Except.error err) :
    processRequest (pre ++ u :: post) d = processRequest (pre ++ post) d := by
  unfold processRequest
  rw [List.foldl_append, List.foldl_append, List.foldl_cons]
  congr 1
  simp [hthrow]

/-- Witness for claim C9: a throwing unit between the default units. -/
theorem claim_C9_witness :
    throwingHandler.process c1Request = Except.error "boom" ∧
    processRequest ([authTokenHandler] ++ throwingHandler ::
      [cookieHandler, queryParamHandler]) c1Request =
      processRequest ([authTokenHandler] ++ [cookieHandler, queryParamHandler])
        c1Request :=
  ⟨rfl, claim_C9_fault_isolation [authTokenHandler]
    [cookieHandler, queryParamHandler] throwingHandler c1Request "boom" rfl⟩

/-- Claim C1 (code behaviour at the claimed scenario): the request
`GET https://api.example.com/v1/users/123` with `Authorization: Bearer abc123`
yields exactly one extraction record of kind `auth-token` with value
`abc123`, tokenType `bearer`, headerName `Authorization`, and a first
observation stores `rotationCount = 0` — but the generated identity key is
`api.example.com::::auth-token::Authorization`, not the claimed
`api.example.com::/v1/users/*::auth-token::Authorization`, because no
handler puts a `path` field into `source` while `generateKey` reads
`result.source?.path || ''` (even though `normalizePathPattern` would map
`/v1/users/123` to `/v1/users/*` as claimed). -/
theorem claim_C1_key_mismatch :
    (processRequest defaultHandlers c1Request).length = 1 ∧
    (processRequest defaultHandlers c1Request).head?.map ExtractRecord.type =
      some "auth-token" ∧
    (processRequest defaultHandlers c1Request).head?.map ExtractRecord.value =
      some "abc123" ∧
    (processRequest defaultHandlers c1Request).head?.map ExtractRecord.tokenType =
      some (some "bearer") ∧
    (processRequest defaultHandlers c1Request).head?.map ExtractRecord.headerName =
      some (some "Authorization") ∧
    (processRequest defaultHandlers c1Request).head?.map
      (fun r => r.source.path) = some none ∧
    (processRequest defaultHandlers c1Request).head?.map generateKey =
      some c1ActualKey ∧
    c1ActualKey ≠ c1ClaimedKey ∧
    normalizePathPattern "/v1/users/123" = "/v1/users/*" ∧
    (processRequest defaultHandlers c1Request).head?.map (fun r =>
      (lookupA (updateCapturedItem (generateKey r) r 1000 emptyState).state.data
        (generateKey r)).map Item.rotationCount) = some (some 0) := by
  refine ⟨rfl, rfl, rfl, rfl, rfl, rfl, by decide, by decide, by decide, by decide⟩

/-- Claim C2: updating an existing key with a different value reports
`rotationDetected = true`, stores `rotationCount = previous + 1` (with the
rest of the rotated entry as written by the code), and prepends exactly one
expired-token snapshot carrying the old value and its original capture time
(the list is then truncated to the cap). -/
theorem claim_C2_rotation (st : StoreState) (k : String) (e : Item)
    (v : ExtractRecord) (now : Nat)
    (hlook : lookupA st.data k = some e) (hne : v.value ≠ e.record.value) :
    (updateCapturedItem k v now st).rotationDetected = true ∧
    lookupA (updateCapturedItem k v now st).state.data k =
      some (rotatedItem v e now) ∧
    (rotatedItem v e now).rotationCount = e.rotationCount + 1 ∧
    (updateCapturedItem k v now st).state.expiredTokens =
      List.take MAX_EXPIRED_TOKENS (expiredSnapshot k e now :: st.expiredTokens) ∧
    (expiredSnapshot k e now).value = e.record.value ∧
    (expiredSnapshot k e now).capturedAt = e.capturedAt := by
  have hcond : e.record.value ≠ v.value := Ne.symm hne
  unfold updateCapturedItem
  rw [hlook]
  dsimp only
  rw [if_pos hcond]
  exact ⟨rfl, lookupA_setA_self st.data k (rotatedItem v e now), rfl, rfl, rfl, rfl⟩

/-- Witness for claim C2: the stored value `v1` rotated to `v2` at time 7. -/
theorem claim_C2_witness :
    lookupA c2State.data "k" = some (newItem recOld 5) ∧
    recNew.value ≠ (newItem recOld 5).record.value ∧
    ((updateCapturedItem "k" recNew 7 c2State).rotationDetected = true ∧
      lookupA (updateCapturedItem "k" recNew 7 c2State).state.data "k" =
        some (rotatedItem recNew (newItem recOld 5) 7) ∧
      (rotatedItem recNew (newItem recOld 5) 7).rotationCount =
        (newItem recOld 5).rotationCount + 1 ∧
      (updateCapturedItem "k" recNew 7 c2State).state.expiredTokens =
        List.take MAX_EXPIRED_TOKENS
          (expiredSnapshot "k" (newItem recOld 5) 7 :: c2State.expiredTokens) ∧
      (expiredSnapshot "k" (newItem recOld 5) 7).value =
        (newItem recOld 5).record.value ∧
      (expiredSnapshot "k" (newItem recOld 5) 7).capturedAt =
        (newItem recOld 5).capturedAt) :=
  ⟨by decide, by decide,
    claim_C2_rotation c2State "k" (newItem recOld 5) recNew 7 (by decide) (by decide)⟩

/-- Claim C3: updating an existing key with the identical value refreshes
`lastSeenAt` only — the stored entry is the old entry with `lastSeenAt`
replaced — and reports `rotationDetected = false`; the expired-token list is
untouched. -/
theorem claim_C3_same_value (st : StoreState) (k : String) (e : Item)
    (v : ExtractRecord) (now : Nat)
    (hlook : lookupA st.data k = some e) (heq : v.value = e.record.value) :
    (updateCapturedItem k v now st).rotationDetected = false ∧
    lookupA (updateCapturedItem k v now st).state.data k =
      some { e with lastSeenAt := some now } ∧
    ({ e with lastSeenAt := some now } : Item).rotationCount = e.rotationCount ∧
    ({ e with lastSeenAt := some now } : Item).capturedAt = e.capturedAt ∧
    ({ e with lastSeenAt := some now } : Item).record = e.record ∧
    (updateCapturedItem k v now st).state.expiredTokens = st.expiredTokens := by
  have hcond : ¬e.record.value ≠ v.value := by
    rw [heq]
    exact fun hc => hc rfl
  unfold updateCapturedItem
  rw [hlook]
  dsimp only
  rw [if_neg hcond]
  exact ⟨rfl, lookupA_setA_self st.data k { e with lastSeenAt := some now },
    rfl, rfl, rfl, rfl⟩

/-- Witness for claim C3: the stored value `v1` seen again at time 9. -/
theorem claim_C3_witness :
    lookupA c2State.data "k" = some (newItem recOld 5) ∧
    recOld.value = (newItem recOld 5).record.value ∧
    ((updateCapturedItem "k" recOld 9 c2State).rotationDetected = false ∧
      lookupA (updateCapturedItem "k" recOld 9 c2State).state.data "k" =
        some { newItem recOld 5 with lastSeenAt := some 9 } ∧
      ({ newItem recOld 5 with lastSeenAt := some 9 } : Item).rotationCount =
        (newItem recOld 5).rotationCount ∧
      ({ newItem recOld 5 with lastSeenAt := some 9 } : Item).capturedAt =
        (newItem recOld 5).capturedAt ∧
      ({ newItem recOld 5 with lastSeenAt := some 9 } : Item).record =
        (newItem recOld 5).record ∧
      (updateCapturedItem "k" recOld 9 c2State).state.expiredTokens =
        c2State.expiredTokens) :=
  ⟨by decide, by decide,
    claim_C3_same_value c2State "k" (newItem recOld 5) recOld 9 (by decide) (by decide)⟩

theorem head?_take_cons {α : Type} (n : Nat) (x : α) (l : List α) (hn : n ≠ 0) :
    (List.take n (x :: l)).head? = some x := by
  cases n with
  | zero => exact absurd rfl hn
  | succ m =>
    rw [List.take_succ_cons]
    rfl

theorem take_prepend_bound {α : Type} (n : Nat) (x : α) (l : List α)
    (f : α → Nat) (now t : Nat)
    (hp : List.Pairwise (fun a b => f b ≤ f a) l)
    (hb : ∀ e ∈ l, f e ≤ t) (ht : t ≤ now) (hx : f x = now) :
    (List.take n (x :: l)).length ≤ n ∧
    List.Pairwise (fun a b => f b ≤ f a) (List.take n (x :: l)) ∧
    (∀ e ∈ List.take n (x :: l), f e ≤ now) := by
  refine ⟨List.length_take_le n _, ?_, ?_⟩
  · refine List.Pairwise.sublist (List.take_sublist n _) ?_
    rw [List.pairwise_cons]
    exact ⟨fun b hb2 => hx ▸ le_trans (hb b hb2) ht, hp⟩
  · intro e he
    rcases List.mem_cons.1 (List.take_subset n _ he) with he2 | he2
    · rw [he2, hx]
    · exact le_trans (hb e he2) ht

/-- One update preserves the store invariant, moving the time bound to `now`. -/
theorem updateCapturedItem_inv (k : String) (v : ExtractRecord) (now t : Nat)
    (st : StoreState) (hinv : StoreInv st t) (ht : t ≤ now) :
    StoreInv (updateCapturedItem k v now st).state now := by
  obtain ⟨hl1, hl2, hp1, hp2, hb1, hb2⟩ := hinv
  unfold updateCapturedItem
  cases hlook : lookupA st.data k with
  | none =>
    dsimp only
    obtain ⟨a, b, c⟩ := take_prepend_bound MAX_HISTORY_ITEMS
      (historyEntry k v now false) st.history (fun e => e.timestamp) now t hp1 hb1
      ht rfl
    exact ⟨a, hl2, b, hp2, c, fun e he => le_trans (hb2 e he) ht⟩
  | some e =>
    dsimp only
    by_cases hcond : e.record.value ≠ v.value
    · rw [if_pos hcond]
      obtain ⟨a, b, c⟩ := take_prepend_bound MAX_HISTORY_ITEMS
        (historyEntry k v now true) st.history (fun x => x.timestamp) now t hp1
        hb1 ht rfl
      obtain ⟨a2, b2, c2⟩ := take_prepend_bound MAX_EXPIRED_TOKENS
        (expiredSnapshot k e now) st.expiredTokens (fun x => x.expiredAt) now t
        hp2 hb2 ht rfl
      exact ⟨a, a2, b, b2, c, c2⟩
    · rw [if_neg hcond]
      obtain ⟨a, b, c⟩ := take_prepend_bound MAX_HISTORY_ITEMS
        (historyEntry k v now false) st.history (fun x => x.timestamp) now t hp1
        hb1 ht rfl
      exact ⟨a, hl2, b, hp2, c, fun x hx => le_trans (hb2 x hx) ht⟩

/-- A run of updates at non-decreasing times preserves the store invariant. -/
theorem runUpdates_inv (ops : List (String × ExtractRecord × Nat))
    (st : StoreState) (t : Nat) (hinv : StoreInv st t)
    (hch : List.Chain (fun a b => a ≤ b) t (ops.map (fun op => op.2.2))) :
    ∃ tEnd, StoreInv (runUpdates ops st) tEnd := by
  induction ops generalizing st t with
  | nil => exact ⟨t, hinv⟩
  | cons op rest ih =>
    rw [List.map_cons, List.chain_cons] at hch
    have hstep := updateCapturedItem_inv op.1 op.2.1 op.2.2 t st hinv hch.1
    show ∃ tEnd,
      StoreInv (runUpdates rest (updateCapturedItem op.1 op.2.1 op.2.2 st).state) tEnd
    exact ih _ _ hstep hch.2

/-- Claim C4: over any sequence of updates (at non-decreasing clock times,
starting from the empty store) the history list never exceeds 100 entries and
the expired-token list never exceeds 50, both stay ordered most-recent-first,
and each update places its new history entry — and, on rotation, its new
expired-token snapshot — at index 0. -/
theorem claim_C4_caps_and_order (ops : List (String × ExtractRecord × Nat))
    (hch : List.Chain (fun a b => a ≤ b) 0 (ops.map (fun op => op.2.2))) :
    (runUpdates ops emptyState).history.length ≤ MAX_HISTORY_ITEMS ∧
    (runUpdates ops emptyState).expiredTokens.length ≤ MAX_EXPIRED_TOKENS ∧
    histDesc (runUpdates ops emptyState).history ∧
    expDesc (runUpdates ops emptyState).expiredTokens ∧
    (∀ (k : String) (v : ExtractRecord) (now : Nat) (st : StoreState),
      ((updateCapturedItem k v now st).state.history).head? =
        some (historyEntry k v now (updateCapturedItem k v now st).rotationDetected)) ∧
    (∀ (k : String) (v : ExtractRecord) (now : Nat) (st : StoreState) (e : Item),
      lookupA st.data k = some e → e.record.value ≠ v.value →
      ((updateCapturedItem k v now st).state.expiredTokens).head? =
        some (expiredSnapshot k e now)) := by
  have hempty : StoreInv emptyState 0 := by
    unfold StoreInv emptyState histDesc expDesc
    simp
  obtain ⟨tEnd, hfin⟩ := runUpdates_inv ops emptyState 0 hempty hch
  obtain ⟨a, b, c, d, _, _⟩ := hfin
  refine ⟨a, b, c, d, ?_, ?_⟩
  · intro k v now st
    unfold updateCapturedItem
    cases hlook : lookupA st.data k with
    | none =>
      dsimp only
      exact head?_take_cons _ _ _ (by decide)
    | some e =>
      dsimp only
      by_cases hcond : e.record.value ≠ v.value
      · rw [if_pos hcond]
        exact head?_take_cons _ _ _ (by decide)
      · rw [if_neg hcond]
        exact head?_take_cons _ _ _ (by decide)
  · intro k v now st e hlook hne
    unfold updateCapturedItem
    rw [hlook]
    dsimp only
    rw [if_pos hne]
    exact head?_take_cons _ _ _ (by decide)

/-- Witness for claim C4 at a concrete two-operation run. -/
theorem claim_C4_witness :
    List.Chain (fun a b => a ≤ b) 0 (c4Ops.map (fun op => op.2.2)) ∧
    ((runUpdates c4Ops emptyState).history.length ≤ MAX_HISTORY_ITEMS ∧
      (runUpdates c4Ops emptyState).expiredTokens.length ≤ MAX_EXPIRED_TOKENS ∧
      histDesc (runUpdates c4Ops emptyState).history ∧
      expDesc (runUpdates c4Ops emptyState).expiredTokens ∧
      (∀ (k : String) (v : ExtractRecord) (now : Nat) (st : StoreState),
        ((updateCapturedItem k v now st).state.history).head? =
          some (historyEntry k v now (updateCapturedItem k v now st).rotationDetected)) ∧
      (∀ (k : String) (v : ExtractRecord) (now : Nat) (st : StoreState) (e : Item),
        lookupA st.data k = some e → e.record.value ≠ v.value →
        ((updateCapturedItem k v now st).state.expiredTokens).head? =
          some (expiredSnapshot k e now))) :=
  ⟨by simp [c4Ops, List.chain_cons], claim_C4_caps_and_order c4Ops
    (by simp [c4Ops, List.chain_cons])⟩

/-- Counterexample to claim C5: tracking the identical request
`GET https://api.stockbit.com/v1/portfolio` twice for page domain
`stockbit.com` leaves `stats.byApiDomain["api.stockbit.com"]` at 1 although
two requests to that API domain were tracked (`totalRequests` and
`byMethod["GET"]` are 2): `byApiDomain` is not incremented per request. -/
theorem claim_C5_counterexample :
    (lookupA c5TrackerTwice "stockbit.com").map (fun dd => dd.totalRequests) =
      some 2 ∧
    (lookupA c5TrackerTwice "stockbit.com").map
      (fun dd => lookupA dd.stats.byMethod "GET") = some (some 2) ∧
    (lookupA c5TrackerTwice "stockbit.com").map
      (fun dd => lookupA dd.stats.byApiDomain "api.stockbit.com") =
      some (some 1) ∧
    (1 : Nat) ≠ 2 := by
  refine ⟨by decide, by decide, by decide, by decide⟩

theorem foldl_min_fst_mem {β : Type} (f : β → Nat) (t : List (String × β))
    (init : String × Nat) :
    (t.foldl (fun best p => if f p.2 < best.2 then (p.1, f p.2) else best)
      init).1 ∈ init.1 :: t.map Prod.fst := by
  induction t generalizing init with
  | nil => exact List.mem_cons_self _ _
  | cons p t ih =>
    rw [List.foldl_cons, List.map_cons]
    by_cases hc : f p.2 < init.2
    · rw [if_pos hc]
      rcases List.mem_cons.1 (ih (p.1, f p.2)) with h1 | h1
      · rw [h1]
        exact List.mem_cons_of_mem _ (List.mem_cons_self _ _)
      · exact List.mem_cons_of_mem _ (List.mem_cons_of_mem _ h1)
    · rw [if_neg hc]
      rcases List.mem_cons.1 (ih init) with h1 | h1
      · rw [h1]
        exact List.mem_cons_self _ _
      · exact List.mem_cons_of_mem _ (List.mem_cons_of_mem _ h1)

theorem minKeyBy_mem {β : Type} (f : β → Nat) (l : List (String × β))
    (k : String) (h : minKeyBy f l = some k) : k ∈ l.map Prod.fst := by
  cases l with
  | nil => exact absurd h (by simp [minKeyBy])
  | cons p t =>
    obtain ⟨k0, v0⟩ := p
    have hk : k =
        (t.foldl (fun best q => if f q.2 < best.2 then (q.1, f q.2) else best)
          (k0, f v0)).1 := by
      have := h
      unfold minKeyBy at this
      exact (Option.some.injEq _ _ ▸ this).symm
    rw [hk, List.map_cons]
    exact foldl_min_fst_mem f t (k0, f v0)

/-- After a successfully parsed request, the tracker holds the updated bucket
for the page domain (the domain-cap eviction never removes the bucket that
was just touched). -/
theorem lookupA_trackApiRequest_self (tracker : Tracker) (pageDomain : String)
    (rd : RequestDetails) (now : Nat) (u : URLRec)
    (hu : parseURL rd.url = some u) :
    lookupA (trackApiRequest pageDomain rd now tracker) pageDomain =
      some (updateDomainData
        ((lookupA tracker pageDomain).getD (initDomainData pageDomain now))
        u rd now) := by
  unfold trackApiRequest
  rw [hu]
  dsimp only
  by_cases hlen : MAX_TRACKED_DOMAINS <
      (setA tracker pageDomain (updateDomainData
        ((lookupA tracker pageDomain).getD (initDomainData pageDomain now))
        u rd now)).length
  · rw [if_pos hlen]
    cases hmin : minKeyBy DomainData.lastVisited
        ((setA tracker pageDomain (updateDomainData
          ((lookupA tracker pageDomain).getD (initDomainData pageDomain now))
          u rd now)).filter (fun p => p.1 ≠ pageDomain)) with
    | none => exact lookupA_setA_self tracker pageDomain _
    | some oldest =>
      have hne : pageDomain ≠ oldest := by
        have hm := minKeyBy_mem _ _ _ hmin
        rcases List.mem_map.1 hm with ⟨p, hp, hfst⟩
        have hpd := (List.mem_filter.1 hp).2
        simp only [decide_eq_true_eq] at hpd
        intro he
        exact hpd (hfst ▸ he.symm)
      rw [lookupA_removeA_ne _ hne, lookupA_setA_self]
  · rw [if_neg hlen]
    exact lookupA_setA_self tracker pageDomain _

theorem lookupA_bumpCount_self (m : List (String × Nat)) (k : String) :
    lookupA (bumpCount m k) k = some ((lookupA m k).getD 0 + 1) :=
  lookupA_setA_self m k _

/-- Claim C5 as amended: for every successfully parsed tracked request the
bucket's `stats.byMethod[M]` is incremented by exactly 1, but
`stats.byApiDomain[D]` is incremented only when the request creates a new
endpoint entry (it counts endpoint entries created per API domain, not
requests); when the endpoint already exists `byApiDomain` is unchanged. -/
theorem claim_C5_amended (tracker : Tracker) (pageDomain : String)
    (rd : RequestDetails) (now : Nat) (u : URLRec) (dd0 : DomainData)
    (hu : parseURL rd.url = some u)
    (hdd : dd0 = (lookupA tracker pageDomain).getD (initDomainData pageDomain now)) :
    lookupA (trackApiRequest pageDomain rd now tracker) pageDomain =
      some (updateDomainData dd0 u rd now) ∧
    lookupA (updateDomainData dd0 u rd now).stats.byMethod rd.method =
      some ((lookupA dd0.stats.byMethod rd.method).getD 0 + 1) ∧
    (∀ ep, lookupA dd0.endpoints
        (endpointKeyOf u.hostname (normalizeApiPath u.pathname) rd.method) =
          some ep →
      (updateDomainData dd0 u rd now).stats.byApiDomain =
        dd0.stats.byApiDomain) ∧
    (lookupA dd0.endpoints
        (endpointKeyOf u.hostname (normalizeApiPath u.pathname) rd.method) =
          none →
      lookupA (updateDomainData dd0 u rd now).stats.byApiDomain u.hostname =
        some ((lookupA dd0.stats.byApiDomain u.hostname).getD 0 + 1)) := by
  subst hdd
  refine ⟨lookupA_trackApiRequest_self tracker pageDomain rd now u hu, ?_, ?_, ?_⟩
  · unfold updateDomainData
    dsimp only
    cases hep : lookupA
        ((lookupA tracker pageDomain).getD (initDomainData pageDomain now)).endpoints
        (endpointKeyOf u.hostname (normalizeApiPath u.pathname) rd.method) with
    | some ep =>
      dsimp only
      exact lookupA_bumpCount_self _ _
    | none =>
      dsimp only
      exact lookupA_bumpCount_self _ _
  · intro ep hep
    unfold updateDomainData
    dsimp only
    rw [hep]
  · intro hep
    unfold updateDomainData
    dsimp only
    rw [hep]
    exact lookupA_bumpCount_self _ _

/-- Witness for the amended claim C5: the first tracked request for a fresh
page domain. -/
theorem claim_C5_witness :
    parseURL c5Request.url = some c5URL ∧
    initDomainData "stockbit.com" 10 =
      (lookupA ([] : Tracker) "stockbit.com").getD
        (initDomainData "stockbit.com" 10) ∧
    (lookupA (trackApiRequest "stockbit.com" c5Request 10 ([] : Tracker))
        "stockbit.com" =
      some (updateDomainData (initDomainData "stockbit.com" 10) c5URL c5Request 10) ∧
    lookupA (updateDomainData (initDomainData "stockbit.com" 10) c5URL c5Request
        10).stats.byMethod c5Request.method =
      some ((lookupA (initDomainData "stockbit.com" 10).stats.byMethod
        c5Request.method).getD 0 + 1) ∧
    (∀ ep, lookupA (initDomainData "stockbit.com" 10).endpoints
        (endpointKeyOf c5URL.hostname (normalizeApiPath c5URL.pathname)
          c5Request.method) = some ep →
      (updateDomainData (initDomainData "stockbit.com" 10) c5URL c5Request
          10).stats.byApiDomain =
        (initDomainData "stockbit.com" 10).stats.byApiDomain) ∧
    (lookupA (initDomainData "stockbit.com" 10).endpoints
        (endpointKeyOf c5URL.hostname (normalizeApiPath c5URL.pathname)
          c5Request.method) = none →
      lookupA (updateDomainData (initDomainData "stockbit.com" 10) c5URL c5Request
          10).stats.byApiDomain c5URL.hostname =
        some ((lookupA (initDomainData "stockbit.com" 10).stats.byApiDomain
          c5URL.hostname).getD 0 + 1))) :=
  ⟨by decide, by decide,
    claim_C5_amended ([] : Tracker) "stockbit.com" c5Request 10 c5URL
      (initDomainData "stockbit.com" 10) (by decide) (by decide)⟩

end BrowserInspector
